import Mathlib

/-!
Verification of the oxyfloat Argo-float caching pipeline.

This file gives a shallow embedding of `oxyfloat/ArgoData.py` (and the
cache-file name encoder of `scripts/load_cache.py`) and proves properties of
the embedded definitions.  Machine floats of the source are modelled as
rationals; pandas DataFrames are modelled as an explicit index list plus
named columns of optional values (`none` = NaN); the HDF store is an
association list from string keys to DataFrames; network endpoints are an
explicit environment of functions, and fetches are counted.
-/

namespace Oxyfloat

/-! ### Cache-file constraint validation (`_validate_cache_file_parm`) -/

/-- The "ridiculously large integer" returned by `_validate_cache_file_parm`
when no value is requested and the cache file declares none. -/
def bigSentinel : Nat := 10000000000

/-- Python truthiness of an optional integer: `None` and `0` are falsy. -/
def optTruthy : Option Nat → Bool
  | none => false
  | some n => n != 0

/-- Transcription of `ArgoData._validate_cache_file_parm`.
`cacheFileParms = none` models the absence of the `cache_file_parms`
attribute (no `cache_file` was given, the lookup raises `AttributeError`);
`parms.lookup parm = none` models the `KeyError` branch. -/
def validateCacheFileParm (cacheFileParms : Option (List (String × Nat)))
    (parm : String) (value : Option Nat) : Nat :=
  -- adjusted_value = value; cache_file_value from the try/except block
  let s : Option Nat × Option Nat :=
    match cacheFileParms with
    | none => (value, none)
    | some parms =>
      match parms.lookup parm with
      | some v => (value, some v)
      | none => (some bigSentinel, none)
  let adjusted :=
    if optTruthy value && optTruthy s.2 then
      if value.getD 0 > s.2.getD 0 then s.2 else s.1
    else if !optTruthy value && optTruthy s.2 then s.2
    else s.1
  -- final `if not adjusted_value` check
  match adjusted with
  | none => bigSentinel
  | some n => if n = 0 then bigSentinel else n

/-! ### Data model: DataFrames, datasets, the HDF store -/

/-- Index tuple of a profile row: `(wmo, time, lon, lat, pressure)`, as built
by `_profile_to_dataframe` (`pd.MultiIndex.from_tuples`). -/
abbrev IdxTuple := String × ℚ × ℚ × ℚ × ℚ

/-- A pandas DataFrame, modelled as its row-index tuples plus named columns
of optional rationals (`none` models NaN). -/
structure DataFrame where
  index : List IdxTuple
  cols : List (String × List (Option ℚ))
deriving Repr, DecidableEq

/-- The `pd.DataFrame()` empty frame. -/
def DataFrame.empty : DataFrame := ⟨[], []⟩

/-- `df.empty` in pandas: true when any axis has length zero. -/
def DataFrame.isEmpty (df : DataFrame) : Bool :=
  df.index.isEmpty || df.cols.isEmpty

/-- Column lookup; a missing column is read as an all-missing empty column
(in Python a missing column raises `KeyError`; theorems that need the column
hypothesize its presence). -/
def DataFrame.col (df : DataFrame) (name : String) : List (Option ℚ) :=
  (df.cols.lookup name).getD []

/-- Python's `round(p, 1)`: one decimal place.  Modelled with Mathlib's
`round` on rationals; the source rounds IEEE doubles, which agrees on all
values that are not exact ties at the second decimal. -/
def round1 (q : ℚ) : ℚ := (round (q * 10) : ℚ) / 10

/-- The local HDF cache (`pd.HDFStore`): string keys to DataFrames. -/
abbrev Store := List (String × DataFrame)

/-- `store[name] = df`: persist under a key, overwriting any prior value. -/
def Store.put : Store → String → DataFrame → Store
  | [], k, df => [(k, df)]
  | (k', df') :: rest, k, df =>
    if k' = k then (k, df) :: rest else (k', df') :: Store.put rest k df

/-- A remote NetCDF dataset as seen through `xray.open_dataset`: the variable
names present, the first-record-slot pressure axis and coordinate scalars, and
per-variable record slots of data values. -/
structure Dataset where
  keys : List String
  presAdjusted0 : List ℚ
  juld0 : ℚ
  longitude0 : ℚ
  latitude0 : ℚ
  dataSlots : String → List (List (Option ℚ))

/-- The four coordinate variables (`ArgoData._coordinates`). -/
def coordinateVars : List String :=
  ["PRES_ADJUSTED", "LATITUDE", "LONGITUDE", "JULD"]

/-- The default `variables` tuple of `ArgoData.__init__`. -/
def defaultVariables : List String :=
  ["TEMP_ADJUSTED", "PSAL_ADJUSTED", "DOXY_ADJUSTED",
   "PRES_ADJUSTED", "LATITUDE", "LONGITUDE", "JULD"]

/-- Symmetric difference `self.variables ^ self._coordinates` (the source uses
Python sets, whose iteration order is unspecified; we fix this order). -/
def symmDiffList (xs ys : List String) : List String :=
  xs.filter (fun v => !ys.contains v) ++ ys.filter (fun v => !xs.contains v)

/-! ### Profile transform -/

/-- Inner loop of `_get_pressures` with its running index `i`: collect
pressures and indices until the first pressure `>= max_pressure` breaks. -/
def getPressuresGo (maxPressure : ℚ) : Nat → List ℚ → List ℚ × List Nat
  | _, [] => ([], [])
  | i, p :: rest =>
    if maxPressure ≤ p then ([], [])
    else
      let pi := getPressuresGo maxPressure (i + 1) rest
      (p :: pi.1, i :: pi.2)

/-- Transcription of `ArgoData._get_pressures`. -/
def getPressures (axis : List ℚ) (maxPressure : ℚ) : List ℚ × List Nat :=
  getPressuresGo maxPressure 0 axis

/-- Fancy-indexing `slot[pres_indices]` of one record slot. -/
def extractSlot (slot : List (Option ℚ)) (indices : List Nat) : List (Option ℚ) :=
  indices.map (fun i => (slot.get? i).getD none)

/-- Value extraction for one non-coordinate variable: read record slot 0 at
the retained indices; if it is entirely NaN, retry slot 1 (`values[1]`),
tolerating its absence (`IndexError` is passed over). -/
def extractVar (ds : Dataset) (v : String) (indices : List Nat) : List (Option ℚ) :=
  let slots := ds.dataSlots v
  let s0 := extractSlot ((slots.get? 0).getD []) indices
  if (s0.filterMap id).isEmpty then
    match slots.get? 1 with
    | some slot1 => extractSlot slot1 indices
    | none => s0
  else s0

/-- Transcription of `ArgoData._profile_to_dataframe`: check every configured
variable is present (else `RequiredVariableNotPresent`), truncate the pressure
axis, build the hierarchical index with pressures rounded to one decimal, and
add the non-coordinate columns.  If no column assignment happens the frame
stays `pd.DataFrame()`. -/
def profileToDataframe (varNames : List String) (wmo : String) (ds : Dataset)
    (maxPressure : ℚ) : Except String DataFrame :=
  if varNames.all (fun v => ds.keys.contains v) then
    let pi := getPressures ds.presAdjusted0 maxPressure
    let tuples : List IdxTuple :=
      pi.1.map (fun p => (wmo, ds.juld0, ds.longitude0, ds.latitude0, round1 p))
    if tuples.isEmpty then .ok DataFrame.empty
    else
      let cols := (symmDiffList varNames coordinateVars).filterMap (fun v =>
        if ds.keys.contains v then some (v, extractVar ds v pi.2) else none)
      if cols.isEmpty then .ok DataFrame.empty
      else .ok ⟨tuples, cols⟩
  else .error "RequiredVariableNotPresent"

/-- Transcription of `ArgoData._validate_oxygen`: if the `DOXY_ADJUSTED`
column has no non-NaN value, replace the frame by an empty one. -/
def validateOxygen (df : DataFrame) : DataFrame :=
  if ((df.col "DOXY_ADJUSTED").filterMap id).isEmpty then DataFrame.empty else df

/-- Transcription of `ArgoData._float_profile`'s regex
`(\d+_\d+).nc$` applied with `re.search`: the match must end at the end of
the string, so it is the maximal trailing `digits_digits` run followed by one
arbitrary character and `nc`; `none` models the `AttributeError` raised on
`m.group` when there is no match. -/
def floatProfileCore (l : List Char) : Option (List Char) :=
  match l.reverse with
  | c1 :: c2 :: _x :: rest =>
    if c1 = 'c' ∧ c2 = 'n' then
      let bRev := rest.takeWhile (·.isDigit)
      if bRev.isEmpty then none
      else
        match rest.drop bRev.length with
        | u :: rest3 =>
          if u = '_' then
            let aRev := rest3.takeWhile (·.isDigit)
            if aRev.isEmpty then none
            else some ('P' :: (aRev.reverse ++ '_' :: bRev.reverse))
          else none
        | [] => none
    else none
  | _ => none

/-- `ArgoData._float_profile`: derive the cache key `P<wmo>_<profile>` from a
profile URL. -/
def floatProfile (url : String) : Option String :=
  (floatProfileCore url.toList).map (fun l => String.mk l)

/-! ### Orchestrator: environment, save, and the main loop -/

/-- Configuration of an `ArgoData` instance. -/
structure Config where
  varNames : List String
  oxygenRequired : Bool
  cacheFileParms : Option (List (String × Nat))

/-- The remote world: the global-meta reference table a fetch would return,
the derivation of DAC catalog urls from that table (`get_dac_urls`' row
filtering, abstracted as a function of the cached table and the wmo list),
the catalog listing per DAC url, and the dataset served per profile url. -/
structure Env where
  metaDf : DataFrame
  dacUrlsOf : DataFrame → List String → List (String × String)
  catalog : String → List String
  datasets : String → Dataset

/-- Store key of the cached global meta table (`ArgoData._GLOBAL_META`). -/
def globalMetaKey : String := "global_meta"

/-- Computation of the DataFrame `_save_profile` persists: run the transform;
on success validate oxygen when required and the frame is non-empty; a
`RequiredVariableNotPresent` yields an empty frame. -/
def saveProfileDf (cfg : Config) (env : Env) (wmo url : String)
    (maxPressure : ℚ) : DataFrame :=
  match profileToDataframe cfg.varNames wmo (env.datasets url) maxPressure with
  | .ok df => if !df.isEmpty && cfg.oxygenRequired then validateOxygen df else df
  | .error _ => DataFrame.empty

/-- `ArgoData._save_profile`: compute the profile frame and put it in the
cache under `key`; returns the updated store and the frame. -/
def saveProfile (cfg : Config) (env : Env) (store : Store) (wmo url key : String)
    (maxPressure : ℚ) : Store × DataFrame :=
  let df := saveProfileDf cfg env wmo url maxPressure
  (store.put key df, df)

/-- One iteration of the inner loop of `get_float_dataframe`: derive the key,
try the cache, and only on `KeyError` fetch and save the profile.  The third
component counts profile-data fetches (calls to `xray.open_dataset`). -/
def processProfileUrl (cfg : Config) (env : Env) (maxPressure : ℚ)
    (wmo : String) (store : Store) (url : String) : Store × DataFrame × Nat :=
  let key := (floatProfile url).getD ""
  match store.lookup key with
  | some df => (store, df, 0)
  | none =>
    let p := saveProfile cfg env store wmo url key maxPressure
    (p.1, p.2, 1)

/-- Inner loop of `get_float_dataframe` over the enumerated catalog urls:
stop as soon as the index exceeds (`>`) `max_profiles`; append each profile
frame to the aggregate when `appendDf`.  Returns the store, the list of
appended frames (the aggregate is their concatenation), and the number of
profile fetches. -/
def processUrls (cfg : Config) (env : Env) (maxProfiles : Nat) (maxPressure : ℚ)
    (wmo : String) (appendDf : Bool) :
    List (Nat × String) → Store → Store × List DataFrame × Nat
  | [], store => (store, [], 0)
  | (i, url) :: rest, store =>
    if maxProfiles < i then (store, [], 0)
    else
      let r := processProfileUrl cfg env maxPressure wmo store url
      let r2 := processUrls cfg env maxProfiles maxPressure wmo appendDf rest r.1
      (r2.1, (if appendDf then r.2.1 :: r2.2.1 else r2.2.1), r.2.2 + r2.2.2)

/-- The inner loop with the `max_profiles` break removed (used to state which
profiles the real loop actually processes). -/
def processUrlsNB (cfg : Config) (env : Env) (maxPressure : ℚ)
    (wmo : String) (appendDf : Bool) :
    List (Nat × String) → Store → Store × List DataFrame × Nat
  | [], store => (store, [], 0)
  | (_, url) :: rest, store =>
    let r := processProfileUrl cfg env maxPressure wmo store url
    let r2 := processUrlsNB cfg env maxPressure wmo appendDf rest r.1
    (r2.1, (if appendDf then r.2.1 :: r2.2.1 else r2.2.1), r.2.2 + r2.2.2)

/-- The enumerated profile urls the inner loop actually reaches before the
`i > max_profiles` break. -/
def processedProfiles (maxProfiles : Nat) : List (Nat × String) → List (Nat × String)
  | [] => []
  | (i, url) :: rest =>
    if maxProfiles < i then []
    else (i, url) :: processedProfiles maxProfiles rest

/-- Cache-first load of the global meta table inside `get_dac_urls`: on a
`KeyError` the reference table is fetched (counted) and cached. -/
def getDacUrls (env : Env) (store : Store) (wmoList : List String) :
    Store × List (String × String) × Nat :=
  match store.lookup globalMetaKey with
  | some df => (store, env.dacUrlsOf df wmoList, 0)
  | none => (store.put globalMetaKey env.metaDf, env.dacUrlsOf env.metaDf wmoList, 1)

/-- Outer loop of `get_float_dataframe` over the floats: fetch each float's
catalog (counted, third component), process its profiles, and concatenate the
appended frames.  The fourth component counts profile fetches. -/
def processFloats (cfg : Config) (env : Env) (maxProfiles : Nat) (maxPressure : ℚ)
    (appendDf : Bool) :
    List (String × String) → Store → Store × List DataFrame × Nat × Nat
  | [], store => (store, [], 0, 0)
  | (wmo, dacUrl) :: rest, store =>
    let urls := env.catalog dacUrl
    let r := processUrls cfg env maxProfiles maxPressure wmo appendDf urls.enum store
    let r2 := processFloats cfg env maxProfiles maxPressure appendDf rest r.1
    (r2.1, r.2.1 ++ r2.2.1, r2.2.2.1 + 1, r.2.2 + r2.2.2.2)

/-- Result of one `get_float_dataframe` call: the aggregate (as the list of
appended per-profile frames), the store, and the fetch counters per kind of
network access. -/
structure RunResult where
  floatDf : List DataFrame
  store : Store
  metaFetches : Nat
  catalogFetches : Nat
  profileFetches : Nat
deriving Repr, DecidableEq

/-- Transcription of `ArgoData.get_float_dataframe`: validate the limits
against the fixed-cache parameters, resolve the DAC urls (cache-first), and
run the per-float loop. -/
def getFloatDataframe (cfg : Config) (env : Env) (store0 : Store)
    (wmoList : List String) (maxProfiles? maxPressure? : Option Nat)
    (appendDf : Bool) : RunResult :=
  let maxProfiles := validateCacheFileParm cfg.cacheFileParms "profiles" maxProfiles?
  let maxPressure := validateCacheFileParm cfg.cacheFileParms "pressure" maxPressure?
  let d := getDacUrls env store0 wmoList
  let r := processFloats cfg env maxProfiles (maxPressure : ℚ) appendDf d.2.1 d.1
  ⟨r.2.1, r.1, d.2.2, r.2.2.1, r.2.2.2⟩

/-! ### Cache-file name encoding (`load_cache.short_cache_file`) and
decoding (`ArgoData._get_cache_file_parms`) -/

/-- `ArgoData._fixed_cache_base`. -/
def fixedCacheBase : String := "oxyfloat_fixed_cache"

/-- The recognized constraint names, obtained by stripping `_` and `RE` from
the class attributes `_ageRE`, `_pressureRE`, `_profilesRE`; `dir()`
enumerates them in sorted order. -/
def cacheParmNames : List String := ["age", "pressure", "profiles"]

/-- Numeric value of a decimal digit character. -/
def digitVal (c : Char) : Nat := c.toNat - '0'.toNat

/-- `int()` of a most-significant-first digit string. -/
def digitsToNat (l : List Char) : Nat := l.foldl (fun n c => 10 * n + digitVal c) 0

/-- Decimal digits of a positive number, least significant first. -/
def natToRevDigits : Nat → List Char
  | 0 => []
  | n + 1 =>
    Char.ofNat ('0'.toNat + (n + 1) % 10) :: natToRevDigits ((n + 1) / 10)
decreasing_by exact Nat.div_lt_self (Nat.succ_pos n) (by decide)

/-- `'{:d}'.format(n)`: decimal rendering of a natural number. -/
def natRepr (n : Nat) : List Char := if n = 0 then ['0'] else (natToRevDigits n).reverse

/-- Whether the first list is a prefix of the second. -/
def startsWithChars : List Char → List Char → Bool
  | [], _ => true
  | _ :: _, [] => false
  | n :: ns, c :: cs => n == c && startsWithChars ns cs

/-- Whether comparing `name` against `t` hits a mismatch strictly inside `t`
(so `name` cannot be a prefix of `t ++ rest` for any `rest`). -/
def mismatchWithin : List Char → List Char → Bool
  | _, [] => false
  | [], _ :: _ => false
  | n :: ns, c :: cs => n != c || mismatchWithin ns cs

/-- One anchor position of the regex `<name>([0-9]+)`: the literal `name`
followed by a maximal non-empty digit run, whose integer value is returned. -/
def matchAt (name hay : List Char) : Option Nat :=
  if startsWithChars name hay then
    let ds := (hay.drop name.length).takeWhile (·.isDigit)
    if ds.isEmpty then none else some (digitsToNat ds)
  else none

/-- `re.search('<name>([0-9]+)', hay)`: the leftmost anchor position that
matches, scanning left to right. -/
def searchIntPattern (name : List Char) : List Char → Option Nat
  | [] => none
  | c :: rest =>
    match matchAt name (c :: rest) with
    | some v => some v
    | none => searchIntPattern name rest

/-- Python's substring test `needle in hay`. -/
def containsSub (needle : List Char) : List Char → Bool
  | [] => needle.isEmpty
  | c :: rest => startsWithChars needle (c :: rest) || containsSub needle rest

/-- Transcription of `ArgoData._get_cache_file_parms`: when the file name
contains the fixed-cache base, search each recognized pattern in it; a match
records the integer, no match (`AttributeError` on `m.group`) records
nothing. -/
def getCacheFileParms (cacheFile : String) : List (String × Nat) :=
  if containsSub fixedCacheBase.toList cacheFile.toList then
    cacheParmNames.filterMap (fun n =>
      (searchIntPattern n.toList cacheFile.toList).map (fun v => (n, v)))
  else []

/-- One `_<name><value>` token of `load_cache.short_cache_file`; an absent
argument (`KeyError`/`ValueError` in the source) contributes nothing. -/
def tokenChars (name : String) : Option Nat → List Char
  | some v => '_' :: (name.toList ++ natRepr v)
  | none => []

/-- The characters of `short_cache_file`: the fixed base, then the `age`,
`pressure`, `profiles` tokens in that (sorted `dir()`) order, then the `.hdf`
extension. -/
def encodedList (age? pressure? profiles? : Option Nat) : List Char :=
  fixedCacheBase.toList ++ (tokenChars "age" age? ++ (tokenChars "pressure" pressure?
    ++ (tokenChars "profiles" profiles? ++ ".hdf".toList)))

/-- Transcription of `load_cache.ArgoDataLoader.short_cache_file`. -/
def shortCacheFile (age? pressure? profiles? : Option Nat) : String :=
  String.mk (encodedList age? pressure? profiles?)

/-! ### Concrete fixtures used by witnesses and counterexamples -/

/-- Default configuration of `ArgoData.__init__` (no cache file). -/
def cfgDefault : Config := ⟨defaultVariables, true, none⟩

/-- A dataset carrying all default variables whose oxygen values are NaN in
record slot 0 and which has no record slot 1. -/
def dsOxyNaN : Dataset :=
  ⟨defaultVariables, [5], 0, 0, 0,
   fun v => if v = "DOXY_ADJUSTED" then [[none]] else [[some 1]]⟩

/-- A dataset missing the required `DOXY_ADJUSTED` variable. -/
def dsNoOxyVar : Dataset :=
  ⟨["TEMP_ADJUSTED", "PSAL_ADJUSTED", "PRES_ADJUSTED",
    "LATITUDE", "LONGITUDE", "JULD"], [5], 0, 0, 0, fun _ => [[some 1]]⟩

/-- The pressure value `0.01`. -/
def q001 : ℚ := 1/100

/-- The pressure value `0.02`. -/
def q002 : ℚ := 2/100

/-- A dataset whose two pressures `0.01` and `0.02` both round to `0.0`. -/
def dsDupRound : Dataset :=
  ⟨defaultVariables, [q001, q002], 0, 0, 0, fun _ => [[some 1, some 2]]⟩

/-- The frame `_profile_to_dataframe` produces from `dsOxyNaN` with
`max_pressure = 10`. -/
def dfOxyNaN : DataFrame :=
  ⟨[("1900650", 0, 0, 0, 5)],
   [("TEMP_ADJUSTED", [some 1]), ("PSAL_ADJUSTED", [some 1]),
    ("DOXY_ADJUSTED", [none])]⟩

/-- An environment with one catalog entry per float. -/
def envPlain : Env :=
  ⟨DataFrame.empty, fun _ wl => wl.map (fun w => (w, "catalog")),
   fun _ => ["R1_1.nc"], fun _ => dsOxyNaN⟩

/-- An environment whose catalog lists three profiles. -/
def envThree : Env :=
  ⟨DataFrame.empty, fun _ wl => wl.map (fun w => (w, "catalog")),
   fun _ => ["R1_1.nc", "R1_2.nc", "R1_3.nc"], fun _ => dsOxyNaN⟩

/-- An environment whose datasets lack the required `DOXY_ADJUSTED`
variable. -/
def envNoOxy : Env :=
  ⟨DataFrame.empty, fun _ wl => wl.map (fun w => (w, "catalog")),
   fun _ => ["R1_1.nc"], fun _ => dsNoOxyVar⟩

/-- The row-index of a transform result (`[]` for the error case). -/
def resultIndex : Except String DataFrame → List IdxTuple
  | .ok df => df.index
  | .error _ => []

/-- The frame `_profile_to_dataframe` produces from `dsDupRound` with
`max_pressure = 10`: two rows with the same coordinate tuple. -/
def dfDup : DataFrame :=
  ⟨[("1900650", 0, 0, 0, 0), ("1900650", 0, 0, 0, 0)],
   [("TEMP_ADJUSTED", [some 1, some 2]), ("PSAL_ADJUSTED", [some 1, some 2]),
    ("DOXY_ADJUSTED", [some 1, some 2])]⟩

/-! ### Theorems for claims C2 and C10 -/

/-- C2: `_validate_cache_file_parm` clamps a request that is looser than the
fixed cache file's declared (positive) value down to the file's value, adopts
the file's value when the request is unset, and returns the sentinel
`10000000000` when neither the request nor the file declares a value (whether
the file omits the parameter or no cache file was given at all). -/
theorem validateCacheFileParm_clamp_adopt_sentinel :
    (∀ (parms : List (String × Nat)) (parm : String) (v cfv : Nat),
      parms.lookup parm = some cfv → 0 < cfv → cfv < v →
      validateCacheFileParm (some parms) parm (some v) = cfv)
    ∧ (∀ (parms : List (String × Nat)) (parm : String) (cfv : Nat),
      parms.lookup parm = some cfv → 0 < cfv →
      validateCacheFileParm (some parms) parm none = cfv)
    ∧ (∀ (parms : List (String × Nat)) (parm : String),
      parms.lookup parm = none →
      validateCacheFileParm (some parms) parm none = bigSentinel)
    ∧ (∀ parm : String,
      validateCacheFileParm none parm none = bigSentinel) := by
  refine ⟨?_, ?_, ?_, ?_⟩
  · intro parms parm v cfv hl hpos hlt
    simp only [validateCacheFileParm, hl, optTruthy]
    have hv : 0 < v := lt_trans hpos hlt
    simp [Nat.pos_iff_ne_zero.mp hv, Nat.pos_iff_ne_zero.mp hpos, hlt,
      Nat.pos_iff_ne_zero.mp hpos]
  · intro parms parm cfv hl hpos
    simp [validateCacheFileParm, hl, optTruthy, Nat.pos_iff_ne_zero.mp hpos]
  · intro parms parm hl
    simp [validateCacheFileParm, hl, optTruthy, bigSentinel]
  · intro parm
    simp [validateCacheFileParm, optTruthy, bigSentinel]

/-- Witness for C2 at concrete inputs: a file declaring `profiles=10` clamps a
request of 50 to 10, supplies 10 to an unset request, and the sentinel cases. -/
theorem validateCacheFileParm_clamp_adopt_sentinel_witness :
    validateCacheFileParm (some [("profiles", 10)]) "profiles" (some 50) = 10
    ∧ validateCacheFileParm (some [("profiles", 10)]) "profiles" none = 10
    ∧ validateCacheFileParm (some [("profiles", 10)]) "pressure" none = bigSentinel
    ∧ validateCacheFileParm none "pressure" none = bigSentinel :=
  ⟨validateCacheFileParm_clamp_adopt_sentinel.1 [("profiles", 10)] "profiles" 50 10
      (by decide) (by decide) (by decide),
   validateCacheFileParm_clamp_adopt_sentinel.2.1 [("profiles", 10)] "profiles" 10
      (by decide) (by decide),
   validateCacheFileParm_clamp_adopt_sentinel.2.2.1 [("profiles", 10)] "pressure"
      (by decide),
   validateCacheFileParm_clamp_adopt_sentinel.2.2.2 "pressure"⟩

/-- C10: a requested value of `0` is falsy in Python, so when no fixed cache
file declares the parameter (either the file omits it or no cache file was
given), validation turns a requested `0` into the sentinel `10000000000`
rather than treating it as a zero limit. -/
theorem validateCacheFileParm_zero_is_unset :
    (∀ parm : String, validateCacheFileParm none parm (some 0) = bigSentinel)
    ∧ (∀ (parms : List (String × Nat)) (parm : String),
      parms.lookup parm = none →
      validateCacheFileParm (some parms) parm (some 0) = bigSentinel) := by
  constructor
  · intro parm
    simp [validateCacheFileParm, optTruthy, bigSentinel]
  · intro parms parm hl
    simp [validateCacheFileParm, hl, optTruthy, bigSentinel]

/-- Witness for C10: requesting `0` profiles with no cache file, and with a
cache file that declares only `age`, yields the sentinel both times. -/
theorem validateCacheFileParm_zero_is_unset_witness :
    validateCacheFileParm none "profiles" (some 0) = bigSentinel
    ∧ validateCacheFileParm (some [("age", 3000)]) "profiles" (some 0) = bigSentinel :=
  ⟨validateCacheFileParm_zero_is_unset.1 "profiles",
   validateCacheFileParm_zero_is_unset.2 [("age", 3000)] "profiles" (by decide)⟩

/-! ### Evaluation lemmas for the concrete fixtures

Rational arithmetic does not reduce in the kernel, so concrete runs of the
transform are evaluated by rewriting. -/

lemma getPressures_159 : getPressures [(1:ℚ), 5, 9] 5 = ([1], [0]) := by
  simp [getPressures, getPressuresGo, show ¬ ((5:ℚ) ≤ 1) by norm_num,
    show (5:ℚ) ≤ 5 by norm_num]

lemma getPressures_at_limit : getPressures [(5:ℚ)] 5 = ([], []) := by
  simp [getPressures, getPressuresGo, show (5:ℚ) ≤ 5 by norm_num]

lemma getPressures_single_10 : getPressures [(5:ℚ)] 10 = ([5], [0]) := by
  simp [getPressures, getPressuresGo, show ¬ ((10:ℚ) ≤ 5) by norm_num]

lemma getPressures_centi_10 : getPressures [q001, q002] 10 = ([q001, q002], [0, 1]) := by
  have h1 : ¬ ((10:ℚ) ≤ q001) := by simp only [q001]; norm_num
  have h2 : ¬ ((10:ℚ) ≤ q002) := by simp only [q002]; norm_num
  simp [getPressures, getPressuresGo, h1, h2]

lemma round1_five : round1 5 = 5 := by
  rw [round1, round_eq]
  norm_num

lemma round1_001 : round1 q001 = 0 := by
  rw [round1, q001, round_eq]
  norm_num

lemma round1_002 : round1 q002 = 0 := by
  rw [round1, q002, round_eq]
  norm_num

lemma dsOxyNaN_vars_present :
    defaultVariables.all (fun v => dsOxyNaN.keys.contains v) = true := by
  decide

lemma profileToDataframe_dsOxyNaN :
    profileToDataframe defaultVariables "1900650" dsOxyNaN 10 = .ok dfOxyNaN := by
  simp only [profileToDataframe, dsOxyNaN_vars_present]
  simp [dsOxyNaN, getPressures_single_10, round1_five, symmDiffList,
    coordinateVars, defaultVariables, extractVar, extractSlot, dfOxyNaN]

lemma profileToDataframe_dsDupRound :
    profileToDataframe defaultVariables "1900650" dsDupRound 10 = .ok dfDup := by
  have hvars : defaultVariables.all (fun v => dsDupRound.keys.contains v) = true := by
    decide
  simp only [profileToDataframe, hvars, dsDupRound]
  rw [getPressures_centi_10]
  simp [round1_001, round1_002, symmDiffList, coordinateVars, defaultVariables,
    extractVar, extractSlot, dfDup]

/-! ### The pressure truncation (claims C7 and C9) -/

lemma range_map_succ_add (n i : Nat) :
    i :: (List.range n).map (· + (i + 1)) = (List.range (n + 1)).map (· + i) := by
  rw [List.range_succ_eq_map]
  simp only [List.map_cons, List.map_map, Nat.zero_add]
  refine congrArg (List.cons i) (List.map_congr_left ?_)
  intro x _
  simp only [Function.comp_apply]
  omega

lemma getPressuresGo_eq (maxP : ℚ) :
    ∀ (axis : List ℚ) (i : Nat),
      getPressuresGo maxP i axis
        = (axis.takeWhile (fun p => decide (p < maxP)),
           (List.range (axis.takeWhile (fun p => decide (p < maxP))).length).map (· + i)) := by
  intro axis
  induction axis with
  | nil => intro i; simp [getPressuresGo]
  | cons p rest ih =>
    intro i
    by_cases h : maxP ≤ p
    · simp [getPressuresGo, h, List.takeWhile_cons_of_neg, not_lt.mpr h]
    · have hlt : p < maxP := not_le.mp h
      simp only [getPressuresGo, if_neg h, ih (i + 1)]
      rw [List.takeWhile_cons_of_pos (by simpa using hlt)]
      refine congrArg₂ Prod.mk rfl ?_
      rw [List.length_cons]
      exact range_map_succ_add _ i

lemma takeWhile_lt_stop (maxP : ℚ) :
    ∀ (axis : List ℚ) (p : ℚ),
      axis.get? (axis.takeWhile (fun p => decide (p < maxP))).length = some p →
      maxP ≤ p := by
  intro axis
  induction axis with
  | nil => intro p h; simp at h
  | cons q rest ih =>
    intro p h
    by_cases hq : q < maxP
    · rw [List.takeWhile_cons_of_pos (by simpa using hq)] at h
      exact ih p h
    · rw [List.takeWhile_cons_of_neg (by simpa using hq)] at h
      simp only [List.length_nil, List.get?_cons_zero, Option.some.injEq] at h
      exact h ▸ not_lt.mp hq

/-- C7: `_get_pressures` retains exactly the contiguous prefix of the pressure
axis strictly before the first element `≥ max_pressure` (indices `0..k-1`),
every retained pressure is strictly below `max_pressure`, the element at the
cut (when one exists) is `≥ max_pressure`, and when nothing qualifies the
transform returns an empty frame instead of failing. -/
theorem getPressures_strictly_before_cut :
    (∀ (axis : List ℚ) (maxP : ℚ),
      getPressures axis maxP
        = (axis.takeWhile (fun p => decide (p < maxP)),
           List.range (axis.takeWhile (fun p => decide (p < maxP))).length))
    ∧ (∀ (axis : List ℚ) (maxP : ℚ), ∀ p ∈ (getPressures axis maxP).1, p < maxP)
    ∧ (∀ (axis : List ℚ) (maxP : ℚ) (p : ℚ),
        axis.get? (getPressures axis maxP).1.length = some p → maxP ≤ p)
    ∧ (∀ (varNames : List String) (wmo : String) (ds : Dataset) (maxP : ℚ),
        varNames.all (fun v => ds.keys.contains v) = true →
        (getPressures ds.presAdjusted0 maxP).1 = [] →
        profileToDataframe varNames wmo ds maxP = .ok DataFrame.empty) := by
  have key : ∀ (axis : List ℚ) (maxP : ℚ),
      getPressures axis maxP
        = (axis.takeWhile (fun p => decide (p < maxP)),
           List.range (axis.takeWhile (fun p => decide (p < maxP))).length) := by
    intro axis maxP
    rw [getPressures, getPressuresGo_eq]
    refine Prod.ext rfl ?_
    simp
  refine ⟨key, ?_, ?_, ?_⟩
  · intro axis maxP p hp
    rw [key] at hp
    simpa using List.mem_takeWhile_imp hp
  · intro axis maxP p hp
    rw [key] at hp
    exact takeWhile_lt_stop maxP axis p hp
  · intro varNames wmo ds maxP hvars hempty
    simp only [profileToDataframe, hvars]
    simp [hempty]

/-- Witness for C7 on the axis `[1, 5, 9]` with `max_pressure = 5` (retained
prefix `[1]`, cut element `5`) and on a dataset whose single pressure is at
the limit (empty result). -/
theorem getPressures_strictly_before_cut_witness :
    ((1:ℚ) < 5) ∧ ((5:ℚ) ≤ 5)
    ∧ profileToDataframe defaultVariables "1900650" dsOxyNaN 5 = .ok DataFrame.empty :=
  ⟨getPressures_strictly_before_cut.2.1 [1, 5, 9] 5 1 (by rw [getPressures_159]; simp),
   getPressures_strictly_before_cut.2.2.1 [1, 5, 9] 5 5 (by rw [getPressures_159]; simp),
   getPressures_strictly_before_cut.2.2.2 defaultVariables "1900650" dsOxyNaN 5
     dsOxyNaN_vars_present
     (by rw [show dsOxyNaN.presAdjusted0 = [(5:ℚ)] from rfl, getPressures_at_limit])⟩

/-- C9 (counterexample): the transform does not deduplicate rows, so for the
pressure axis `[0.01, 0.02]`, whose retained values both round to `0.0`, the
produced frame's coordinate tuples are not unique. -/
theorem profileToDataframe_dup_round_counterexample :
    ¬ (resultIndex (profileToDataframe defaultVariables "1900650" dsDupRound 10)).Nodup := by
  rw [profileToDataframe_dsDupRound]
  simp [resultIndex, dfDup]

/-- C9 (amended): every row's coordinate tuple is unique in the produced
frame provided the retained pressures have pairwise-distinct one-decimal
roundings; with equal roundings duplicate tuples are kept (first occurrence
does not win). -/
theorem profileToDataframe_index_nodup (varNames : List String) (wmo : String)
    (ds : Dataset) (maxP : ℚ) (df : DataFrame)
    (h : profileToDataframe varNames wmo ds maxP = .ok df)
    (hnd : ((getPressures ds.presAdjusted0 maxP).1.map round1).Nodup) :
    df.index.Nodup := by
  simp only [profileToDataframe] at h
  split at h
  · split at h
    · cases h
      simp [DataFrame.empty]
    · split at h
      · cases h
        simp [DataFrame.empty]
      · cases h
        show (((getPressures ds.presAdjusted0 maxP).1.map
          (fun p => (wmo, ds.juld0, ds.longitude0, ds.latitude0, round1 p)))).Nodup
        rw [show (fun p => (wmo, ds.juld0, ds.longitude0, ds.latitude0, round1 p))
              = (fun r => (wmo, ds.juld0, ds.longitude0, ds.latitude0, r)) ∘ round1
            from rfl, ← List.map_map]
        refine hnd.map ?_
        intro a b hab
        simpa using hab
  · cases h

/-- Witness for the amended C9: the single-level frame from `dsOxyNaN` has a
duplicate-free index. -/
theorem profileToDataframe_index_nodup_witness : dfOxyNaN.index.Nodup :=
  profileToDataframe_index_nodup defaultVariables "1900650" dsOxyNaN 10 dfOxyNaN
    profileToDataframe_dsOxyNaN
    (by rw [show dsOxyNaN.presAdjusted0 = [(5:ℚ)] from rfl, getPressures_single_10]
        simp)

/-! ### Store lemmas -/

lemma lookup_put_self (s : Store) (k : String) (df : DataFrame) :
    (Store.put s k df).lookup k = some df := by
  induction s with
  | nil => simp [Store.put, List.lookup]
  | cons e rest ih =>
    obtain ⟨k', df'⟩ := e
    by_cases h : k' = k
    · subst h
      simp [Store.put, List.lookup]
    · have hbeq : (k == k') = false := beq_eq_false_iff_ne.mpr (Ne.symm h)
      simp [Store.put, h, List.lookup, hbeq, ih]

lemma lookup_put_ne (s : Store) (k k' : String) (df : DataFrame) (h : k' ≠ k) :
    (Store.put s k df).lookup k' = s.lookup k' := by
  have hbeq : (k' == k) = false := beq_eq_false_iff_ne.mpr h
  induction s with
  | nil => simp [Store.put, List.lookup, hbeq]
  | cons e rest ih =>
    obtain ⟨k'', df''⟩ := e
    by_cases h2 : k'' = k
    · subst h2
      simp [Store.put, List.lookup, hbeq]
    · simp [Store.put, h2, List.lookup, ih]

lemma filterMap_id_all_none {l : List (Option ℚ)} (h : ∀ x ∈ l, x = none) :
    l.filterMap id = [] := by
  induction l with
  | nil => rfl
  | cons x rest ih =>
    have hx := h x (by simp)
    subst hx
    simpa using ih (fun y hy => h y (by simp [hy]))

/-! ### The oxygen gate (claim C8) -/

/-- C8: when the transform succeeds and the frame's `DOXY_ADJUSTED` column
has no non-missing value, `_save_profile` stores an empty frame under the
profile key if `oxygen_required` is on, and stores the frame unchanged (all
its non-oxygen columns included) if `oxygen_required` is off. -/
theorem saveProfile_oxygen_gate (cfg : Config) (env : Env) (store : Store)
    (wmo url key : String) (maxP : ℚ) (df : DataFrame) (oxyCol : List (Option ℚ))
    (h : profileToDataframe cfg.varNames wmo (env.datasets url) maxP = .ok df)
    (hcol : df.cols.lookup "DOXY_ADJUSTED" = some oxyCol)
    (hnone : ∀ x ∈ oxyCol, x = none) :
    ((saveProfile { cfg with oxygenRequired := true } env store wmo url key maxP).1.lookup key
        = some DataFrame.empty)
    ∧ ((saveProfile { cfg with oxygenRequired := false } env store wmo url key maxP).1.lookup key
        = some df) := by
  have hcolsne : df.cols ≠ [] := by
    intro hc
    rw [hc] at hcol
    simp [List.lookup] at hcol
  have hne : df.isEmpty = false := by
    simp only [profileToDataframe] at h
    split at h
    · split at h
      · cases h
        exact absurd rfl hcolsne
      · split at h
        · cases h
          exact absurd rfl hcolsne
        · cases h
          rename_i htup hcols
          simp only [DataFrame.isEmpty]
          rw [Bool.or_eq_false_iff]
          exact ⟨Bool.not_eq_true _ ▸ (Bool.eq_false_iff.mpr htup),
                 Bool.eq_false_iff.mpr hcols⟩
    · cases h
  have hox : validateOxygen df = DataFrame.empty := by
    rw [validateOxygen, DataFrame.col, hcol]
    simp [filterMap_id_all_none hnone]
  refine ⟨?_, ?_⟩
  · simp only [saveProfile, saveProfileDf, h, hne, hox]
    simp [lookup_put_self]
  · simp only [saveProfile, saveProfileDf, h]
    simp [lookup_put_self]

/-- Witness for C8 on `dsOxyNaN` (all-NaN oxygen): with oxygen required the
stored frame is empty; without it the frame survives unchanged. -/
theorem saveProfile_oxygen_gate_witness :
    ((saveProfile { cfgDefault with oxygenRequired := true } envPlain []
        "1900650" "R1_1.nc" "P1_1" 10).1.lookup "P1_1" = some DataFrame.empty)
    ∧ ((saveProfile { cfgDefault with oxygenRequired := false } envPlain []
        "1900650" "R1_1.nc" "P1_1" 10).1.lookup "P1_1" = some dfOxyNaN) :=
  saveProfile_oxygen_gate cfgDefault envPlain [] "1900650" "R1_1.nc" "P1_1" 10
    dfOxyNaN [none]
    (by simpa [cfgDefault, envPlain] using profileToDataframe_dsOxyNaN)
    rfl
    (by simp)

/-! ### Cache hits are terminal (claim C1) -/

/-- C1: a key already present in the store short-circuits the inner loop of
`get_float_dataframe`: the cached frame (whatever it is, empty included) is
returned with no profile fetch and no store write; and a profile whose
dataset lacks a required variable has an empty frame persisted under its key,
so that the following lookup of the same key returns that empty frame with
zero fetches. -/
theorem cache_hit_is_terminal :
    (∀ (cfg : Config) (env : Env) (maxP : ℚ) (wmo : String) (store : Store)
        (url : String) (df : DataFrame),
      store.lookup ((floatProfile url).getD "") = some df →
      processProfileUrl cfg env maxP wmo store url = (store, df, 0))
    ∧ (∀ (cfg : Config) (env : Env) (maxP : ℚ) (wmo : String) (store : Store)
        (url v : String),
      store.lookup ((floatProfile url).getD "") = none →
      v ∈ cfg.varNames → (env.datasets url).keys.contains v = false →
      processProfileUrl cfg env maxP wmo store url
        = (Store.put store ((floatProfile url).getD "") DataFrame.empty,
           DataFrame.empty, 1)
      ∧ processProfileUrl cfg env maxP wmo
          (Store.put store ((floatProfile url).getD "") DataFrame.empty) url
        = (Store.put store ((floatProfile url).getD "") DataFrame.empty,
           DataFrame.empty, 0)) := by
  constructor
  · intro cfg env maxP wmo store url df h
    simp [processProfileUrl, h]
  · intro cfg env maxP wmo store url v hmiss hv hnovar
    have hall : (cfg.varNames.all
        (fun w => (env.datasets url).keys.contains w)) = false := by
      cases hb : cfg.varNames.all (fun w => (env.datasets url).keys.contains w) with
      | false => rfl
      | true =>
        have hc := List.all_eq_true.mp hb v hv
        rw [hnovar] at hc
        exact (Bool.false_ne_true hc).elim
    have herr : profileToDataframe cfg.varNames wmo (env.datasets url) maxP
        = .error "RequiredVariableNotPresent" := by
      simp only [profileToDataframe, hall]
      rfl
    have hsave : saveProfileDf cfg env wmo url maxP = DataFrame.empty := by
      simp only [saveProfileDf, herr]
    constructor
    · simp [processProfileUrl, hmiss, saveProfile, hsave]
    · simp [processProfileUrl, lookup_put_self]

/-- Witness for C1: a cached key (even one holding data) is returned as-is
with zero fetches, and a missing-variable profile caches an empty frame whose
second read fetches nothing. -/
theorem cache_hit_is_terminal_witness :
    processProfileUrl cfgDefault envNoOxy 10 "1900650" [("P1_1", dfOxyNaN)] "R1_1.nc"
      = ([("P1_1", dfOxyNaN)], dfOxyNaN, 0)
    ∧ (processProfileUrl cfgDefault envNoOxy 10 "1900650" [] "R1_1.nc"
        = (Store.put [] "P1_1" DataFrame.empty, DataFrame.empty, 1)
      ∧ processProfileUrl cfgDefault envNoOxy 10 "1900650"
          (Store.put [] "P1_1" DataFrame.empty) "R1_1.nc"
        = (Store.put [] "P1_1" DataFrame.empty, DataFrame.empty, 0)) :=
  ⟨cache_hit_is_terminal.1 cfgDefault envNoOxy 10 "1900650"
      [("P1_1", dfOxyNaN)] "R1_1.nc" dfOxyNaN rfl,
   cache_hit_is_terminal.2 cfgDefault envNoOxy 10 "1900650" [] "R1_1.nc"
      "DOXY_ADJUSTED" rfl (by simp [cfgDefault, defaultVariables]) rfl⟩

/-! ### The max_profiles break (claim C3) -/

lemma processedProfiles_enumFrom (m : Nat) :
    ∀ (urls : List String) (k : Nat),
      processedProfiles m (List.enumFrom k urls)
        = (List.enumFrom k urls).take (m + 1 - k) := by
  intro urls
  induction urls with
  | nil => intro k; simp [processedProfiles]
  | cons u rest ih =>
    intro k
    by_cases h : m < k
    · have h0 : m + 1 - k = 0 := by omega
      simp [List.enumFrom, processedProfiles, h, h0]
    · have h1 : m + 1 - k = (m + 1 - (k + 1)) + 1 := by omega
      simp only [List.enumFrom, processedProfiles, if_neg h, h1,
        List.take_succ_cons]
      rw [ih (k + 1)]

/-- C3 (counterexample): with `max_profiles = 1` and a three-profile catalog,
the loop fetches two profiles — the profile at index `1 = max_profiles` is
processed (its key is saved), because the break condition is the strict
`i > max_profiles`. -/
theorem processUrls_processes_at_max_index :
    (processUrls cfgDefault envThree 1 10 "1900650" true
        (["R1_1.nc", "R1_2.nc", "R1_3.nc"].enum) []).2.2 = 2
    ∧ ((processUrls cfgDefault envThree 1 10 "1900650" true
        (["R1_1.nc", "R1_2.nc", "R1_3.nc"].enum) []).1.lookup "P1_2").isSome = true := by
  exact ⟨rfl, rfl⟩

/-- C3 (amended): profiles are processed in catalog order, and processing
stops at the first profile whose index is strictly greater than the effective
`max_profiles` — the loop handles exactly the first `max_profiles + 1`
catalog entries (the profile at index equal to `max_profiles` is processed). -/
theorem processUrls_stop_after_max :
    (∀ (maxProfiles : Nat) (urls : List String),
      processedProfiles maxProfiles urls.enum = urls.enum.take (maxProfiles + 1))
    ∧ (∀ (cfg : Config) (env : Env) (maxProfiles : Nat) (maxP : ℚ) (wmo : String)
        (app : Bool) (l : List (Nat × String)) (store : Store),
      processUrls cfg env maxProfiles maxP wmo app l store
        = processUrlsNB cfg env maxP wmo app (processedProfiles maxProfiles l) store) := by
  constructor
  · intro m urls
    rw [List.enum, processedProfiles_enumFrom]
    simp
  · intro cfg env m maxP wmo app l
    induction l with
    | nil => intro store; simp [processUrls, processedProfiles, processUrlsNB]
    | cons e rest ih =>
      intro store
      obtain ⟨i, url⟩ := e
      by_cases h : m < i
      · simp [processUrls, processedProfiles, h, processUrlsNB]
      · simp only [processUrls, processedProfiles, if_neg h, processUrlsNB]
        rw [ih]

/-! ### Idempotence of the orchestrator (claim C4) -/

/-- Every entry present in `s` is present, with the same frame, in `t`. -/
def StoreExtends (s t : Store) : Prop :=
  ∀ (k : String) (df : DataFrame), s.lookup k = some df → t.lookup k = some df

lemma storeExtends_refl (s : Store) : StoreExtends s s := fun _ _ h => h

lemma storeExtends_trans {s t u : Store} (h1 : StoreExtends s t)
    (h2 : StoreExtends t u) : StoreExtends s u :=
  fun k df h => h2 k df (h1 k df h)

lemma storeExtends_put {s : Store} {k : String} {df : DataFrame}
    (h : s.lookup k = none) : StoreExtends s (Store.put s k df) := by
  intro k' df' h'
  have hne : k' ≠ k := by
    intro he
    subst he
    rw [h'] at h
    cases h
  rw [lookup_put_ne _ _ _ _ hne]
  exact h'

lemma processUrls_extends_replay (cfg : Config) (env : Env) (mp : Nat) (mpr : ℚ)
    (wmo : String) (app : Bool) :
    ∀ (l : List (Nat × String)) (store : Store),
      StoreExtends store (processUrls cfg env mp mpr wmo app l store).1
      ∧ (∀ s2, StoreExtends (processUrls cfg env mp mpr wmo app l store).1 s2 →
          processUrls cfg env mp mpr wmo app l s2
            = (s2, (processUrls cfg env mp mpr wmo app l store).2.1, 0)) := by
  intro l
  induction l with
  | nil =>
    intro store
    exact ⟨storeExtends_refl _, fun s2 _ => by simp [processUrls]⟩
  | cons e rest ih =>
    intro store
    obtain ⟨i, url⟩ := e
    by_cases hbreak : mp < i
    · refine ⟨?_, ?_⟩
      · simp only [processUrls, if_pos hbreak]
        exact storeExtends_refl _
      · intro s2 _
        simp only [processUrls, if_pos hbreak]
    · cases hkey : store.lookup ((floatProfile url).getD "") with
      | some df =>
        have hfirst : processUrls cfg env mp mpr wmo app ((i, url) :: rest) store
            = ((processUrls cfg env mp mpr wmo app rest store).1,
               (if app then df :: (processUrls cfg env mp mpr wmo app rest store).2.1
                else (processUrls cfg env mp mpr wmo app rest store).2.1),
               (processUrls cfg env mp mpr wmo app rest store).2.2) := by
          simp [processUrls, if_neg hbreak, processProfileUrl, hkey]
        refine ⟨?_, ?_⟩
        · rw [hfirst]
          exact (ih store).1
        · intro s2 hs2
          rw [hfirst] at hs2 ⊢
          have hs2' : s2.lookup ((floatProfile url).getD "") = some df :=
            hs2 _ _ ((ih store).1 _ _ hkey)
          simp only [processUrls, if_neg hbreak, processProfileUrl, hs2',
            (ih store).2 s2 hs2]
      | none =>
        have hput : StoreExtends store
            (Store.put store ((floatProfile url).getD "")
              (saveProfileDf cfg env wmo url mpr)) := storeExtends_put hkey
        have hfirst : processUrls cfg env mp mpr wmo app ((i, url) :: rest) store
            = ((processUrls cfg env mp mpr wmo app rest
                  (Store.put store ((floatProfile url).getD "")
                    (saveProfileDf cfg env wmo url mpr))).1,
               (if app then saveProfileDf cfg env wmo url mpr ::
                  (processUrls cfg env mp mpr wmo app rest
                    (Store.put store ((floatProfile url).getD "")
                      (saveProfileDf cfg env wmo url mpr))).2.1
                else (processUrls cfg env mp mpr wmo app rest
                    (Store.put store ((floatProfile url).getD "")
                      (saveProfileDf cfg env wmo url mpr))).2.1),
               1 + (processUrls cfg env mp mpr wmo app rest
                    (Store.put store ((floatProfile url).getD "")
                      (saveProfileDf cfg env wmo url mpr))).2.2) := by
          simp [processUrls, if_neg hbreak, processProfileUrl, hkey, saveProfile]
        refine ⟨?_, ?_⟩
        · rw [hfirst]
          exact storeExtends_trans hput (ih _).1
        · intro s2 hs2
          rw [hfirst] at hs2 ⊢
          have hsaved : (processUrls cfg env mp mpr wmo app rest
              (Store.put store ((floatProfile url).getD "")
                (saveProfileDf cfg env wmo url mpr))).1.lookup
                ((floatProfile url).getD "")
              = some (saveProfileDf cfg env wmo url mpr) :=
            (ih _).1 _ _ (lookup_put_self _ _ _)
          have hs2' : s2.lookup ((floatProfile url).getD "")
              = some (saveProfileDf cfg env wmo url mpr) := hs2 _ _ hsaved
          simp only [processUrls, if_neg hbreak, processProfileUrl, hs2',
            (ih _).2 s2 hs2]

lemma processFloats_extends_replay (cfg : Config) (env : Env) (mp : Nat)
    (mpr : ℚ) (app : Bool) :
    ∀ (dacs : List (String × String)) (store : Store),
      StoreExtends store (processFloats cfg env mp mpr app dacs store).1
      ∧ (∀ s2, StoreExtends (processFloats cfg env mp mpr app dacs store).1 s2 →
          processFloats cfg env mp mpr app dacs s2
            = (s2, (processFloats cfg env mp mpr app dacs store).2.1,
               (processFloats cfg env mp mpr app dacs store).2.2.1, 0)) := by
  intro dacs
  induction dacs with
  | nil =>
    intro store
    exact ⟨storeExtends_refl _, fun s2 _ => by simp [processFloats]⟩
  | cons e rest ih =>
    intro store
    obtain ⟨wmo, dacUrl⟩ := e
    have hu := processUrls_extends_replay cfg env mp mpr wmo app
      (env.catalog dacUrl).enum store
    have hfirst : processFloats cfg env mp mpr app ((wmo, dacUrl) :: rest) store
        = ((processFloats cfg env mp mpr app rest
              (processUrls cfg env mp mpr wmo app (env.catalog dacUrl).enum store).1).1,
           (processUrls cfg env mp mpr wmo app (env.catalog dacUrl).enum store).2.1
              ++ (processFloats cfg env mp mpr app rest
                  (processUrls cfg env mp mpr wmo app (env.catalog dacUrl).enum store).1).2.1,
           (processFloats cfg env mp mpr app rest
              (processUrls cfg env mp mpr wmo app (env.catalog dacUrl).enum store).1).2.2.1 + 1,
           (processUrls cfg env mp mpr wmo app (env.catalog dacUrl).enum store).2.2
              + (processFloats cfg env mp mpr app rest
                  (processUrls cfg env mp mpr wmo app (env.catalog dacUrl).enum store).1).2.2.2) := by
      simp [processFloats]
    refine ⟨?_, ?_⟩
    · rw [hfirst]
      exact storeExtends_trans hu.1 (ih _).1
    · intro s2 hs2
      rw [hfirst] at hs2 ⊢
      have hext : StoreExtends
          (processUrls cfg env mp mpr wmo app (env.catalog dacUrl).enum store).1 s2 :=
        storeExtends_trans (ih _).1 hs2
      simp only [processFloats, hu.2 s2 hext, (ih _).2 s2 hs2]

/-- C4 (amended): a second `get_float_dataframe` call with identical
arguments returns the identical aggregate (the same list of appended frames),
leaves the store unchanged, performs zero reference-table fetches and zero
profile-data fetches — but it still fetches each float's catalog listing
anew, exactly as many times as the first call did. -/
theorem getFloatDataframe_idempotent (cfg : Config) (env : Env) (store0 : Store)
    (wmoList : List String) (mp? mpr? : Option Nat) :
    ((getFloatDataframe cfg env
        (getFloatDataframe cfg env store0 wmoList mp? mpr? true).store
        wmoList mp? mpr? true).floatDf
      = (getFloatDataframe cfg env store0 wmoList mp? mpr? true).floatDf)
    ∧ ((getFloatDataframe cfg env
        (getFloatDataframe cfg env store0 wmoList mp? mpr? true).store
        wmoList mp? mpr? true).store
      = (getFloatDataframe cfg env store0 wmoList mp? mpr? true).store)
    ∧ ((getFloatDataframe cfg env
        (getFloatDataframe cfg env store0 wmoList mp? mpr? true).store
        wmoList mp? mpr? true).metaFetches = 0)
    ∧ ((getFloatDataframe cfg env
        (getFloatDataframe cfg env store0 wmoList mp? mpr? true).store
        wmoList mp? mpr? true).profileFetches = 0)
    ∧ ((getFloatDataframe cfg env
        (getFloatDataframe cfg env store0 wmoList mp? mpr? true).store
        wmoList mp? mpr? true).catalogFetches
      = (getFloatDataframe cfg env store0 wmoList mp? mpr? true).catalogFetches) := by
  cases hgm : store0.lookup globalMetaKey with
  | some g =>
    have hfirst : getFloatDataframe cfg env store0 wmoList mp? mpr? true
        = ⟨(processFloats cfg env
              (validateCacheFileParm cfg.cacheFileParms "profiles" mp?)
              ((validateCacheFileParm cfg.cacheFileParms "pressure" mpr? : Nat) : ℚ) true
              (env.dacUrlsOf g wmoList) store0).2.1,
           (processFloats cfg env
              (validateCacheFileParm cfg.cacheFileParms "profiles" mp?)
              ((validateCacheFileParm cfg.cacheFileParms "pressure" mpr? : Nat) : ℚ) true
              (env.dacUrlsOf g wmoList) store0).1, 0,
           (processFloats cfg env
              (validateCacheFileParm cfg.cacheFileParms "profiles" mp?)
              ((validateCacheFileParm cfg.cacheFileParms "pressure" mpr? : Nat) : ℚ) true
              (env.dacUrlsOf g wmoList) store0).2.2.1,
           (processFloats cfg env
              (validateCacheFileParm cfg.cacheFileParms "profiles" mp?)
              ((validateCacheFileParm cfg.cacheFileParms "pressure" mpr? : Nat) : ℚ) true
              (env.dacUrlsOf g wmoList) store0).2.2.2⟩ := by
      simp [getFloatDataframe, getDacUrls, hgm]
    have hf := processFloats_extends_replay cfg env
      (validateCacheFileParm cfg.cacheFileParms "profiles" mp?)
      ((validateCacheFileParm cfg.cacheFileParms "pressure" mpr? : Nat) : ℚ) true
      (env.dacUrlsOf g wmoList) store0
    have hgm2 : (processFloats cfg env
        (validateCacheFileParm cfg.cacheFileParms "profiles" mp?)
        ((validateCacheFileParm cfg.cacheFileParms "pressure" mpr? : Nat) : ℚ) true
        (env.dacUrlsOf g wmoList) store0).1.lookup globalMetaKey = some g :=
      hf.1 _ _ hgm
    have hreplay := hf.2 _ (storeExtends_refl _)
    rw [hfirst]
    simp only [getFloatDataframe, getDacUrls, hgm2]
    rw [hreplay]
    simp
  | none =>
    have hfirst : getFloatDataframe cfg env store0 wmoList mp? mpr? true
        = ⟨(processFloats cfg env
              (validateCacheFileParm cfg.cacheFileParms "profiles" mp?)
              ((validateCacheFileParm cfg.cacheFileParms "pressure" mpr? : Nat) : ℚ) true
              (env.dacUrlsOf env.metaDf wmoList)
              (Store.put store0 globalMetaKey env.metaDf)).2.1,
           (processFloats cfg env
              (validateCacheFileParm cfg.cacheFileParms "profiles" mp?)
              ((validateCacheFileParm cfg.cacheFileParms "pressure" mpr? : Nat) : ℚ) true
              (env.dacUrlsOf env.metaDf wmoList)
              (Store.put store0 globalMetaKey env.metaDf)).1, 1,
           (processFloats cfg env
              (validateCacheFileParm cfg.cacheFileParms "profiles" mp?)
              ((validateCacheFileParm cfg.cacheFileParms "pressure" mpr? : Nat) : ℚ) true
              (env.dacUrlsOf env.metaDf wmoList)
              (Store.put store0 globalMetaKey env.metaDf)).2.2.1,
           (processFloats cfg env
              (validateCacheFileParm cfg.cacheFileParms "profiles" mp?)
              ((validateCacheFileParm cfg.cacheFileParms "pressure" mpr? : Nat) : ℚ) true
              (env.dacUrlsOf env.metaDf wmoList)
              (Store.put store0 globalMetaKey env.metaDf)).2.2.2⟩ := by
      simp [getFloatDataframe, getDacUrls, hgm]
    have hf := processFloats_extends_replay cfg env
      (validateCacheFileParm cfg.cacheFileParms "profiles" mp?)
      ((validateCacheFileParm cfg.cacheFileParms "pressure" mpr? : Nat) : ℚ) true
      (env.dacUrlsOf env.metaDf wmoList) (Store.put store0 globalMetaKey env.metaDf)
    have hgm2 : (processFloats cfg env
        (validateCacheFileParm cfg.cacheFileParms "profiles" mp?)
        ((validateCacheFileParm cfg.cacheFileParms "pressure" mpr? : Nat) : ℚ) true
        (env.dacUrlsOf env.metaDf wmoList)
        (Store.put store0 globalMetaKey env.metaDf)).1.lookup globalMetaKey
        = some env.metaDf :=
      hf.1 _ _ (lookup_put_self _ _ _)
    have hreplay := hf.2 _ (storeExtends_refl _)
    rw [hfirst]
    simp only [getFloatDataframe, getDacUrls, hgm2]
    rw [hreplay]
    simp

/-- C4 (counterexample): the catalog listing is re-fetched on every call —
the second call with identical arguments still performs one catalog network
fetch for its single float, so it does not issue zero network fetches. -/
theorem getFloatDataframe_second_call_catalog_fetch :
    (getFloatDataframe cfgDefault envPlain
        (getFloatDataframe cfgDefault envPlain [] ["1900650"] none none true).store
        ["1900650"] none none true).catalogFetches = 1 := by
  rfl

/-! ### Key derivation (claim C6) -/

lemma takeWhile_all {α : Type} {p : α → Bool} :
    ∀ {l : List α}, (∀ x ∈ l, p x = true) → l.takeWhile p = l := by
  intro l
  induction l with
  | nil => intro _; rfl
  | cons x rest ih =>
    intro h
    rw [List.takeWhile_cons_of_pos (h x (by simp))]
    rw [ih (fun y hy => h y (by simp [hy]))]

lemma takeWhile_all_append_cons {α : Type} {p : α → Bool} (l1 : List α) (c : α)
    (l2 : List α) (h1 : ∀ x ∈ l1, p x = true) (hc : p c = false) :
    (l1 ++ c :: l2).takeWhile p = l1 := by
  induction l1 with
  | nil => rw [List.nil_append, List.takeWhile_cons_of_neg (by simp [hc])]
  | cons x rest ih =>
    rw [List.cons_append, List.takeWhile_cons_of_pos (h1 x (by simp))]
    rw [ih (fun y hy => h1 y (by simp [hy]))]

/-- C6: for a location whose basename ends in `<digits>_<digits>.nc` (with
the digit runs maximal: the character before them is not a digit), the
derived cache key is `P` followed by that `<digits>_<digits>` substring; in
particular the catalog location `.../R1900650_003.nc` derives `P1900650_003`. -/
theorem floatProfile_derives_key :
    (∀ (p a b : List Char), a ≠ [] → b ≠ [] →
      (∀ c ∈ a, c.isDigit = true) → (∀ c ∈ b, c.isDigit = true) →
      (∀ c, p.getLast? = some c → c.isDigit = false) →
      floatProfile (String.mk (p ++ a ++ '_' :: (b ++ ['.', 'n', 'c'])))
        = some (String.mk ('P' :: (a ++ '_' :: b))))
    ∧ floatProfile "http://tds0.ifremer.fr/thredds/dodsC/R1900650_003.nc"
        = some "P1900650_003" := by
  constructor
  · intro p a b ha hb hda hdb hplast
    have hbrev : ∀ c ∈ b.reverse, c.isDigit = true := fun c hc =>
      hdb c (List.mem_reverse.mp hc)
    have harev : ∀ c ∈ a.reverse, c.isDigit = true := fun c hc =>
      hda c (List.mem_reverse.mp hc)
    have hrev : (p ++ a ++ '_' :: (b ++ ['.', 'n', 'c'])).reverse
        = 'c' :: 'n' :: '.' :: (b.reverse ++ '_' :: (a.reverse ++ p.reverse)) := by
      simp
    have htakeb : (b.reverse ++ '_' :: (a.reverse ++ p.reverse)).takeWhile (·.isDigit)
        = b.reverse := takeWhile_all_append_cons _ _ _ hbrev (by decide)
    have hdropb : (b.reverse ++ '_' :: (a.reverse ++ p.reverse)).drop b.reverse.length
        = '_' :: (a.reverse ++ p.reverse) := List.drop_left _ _
    have htakea : (a.reverse ++ p.reverse).takeWhile (·.isDigit) = a.reverse := by
      rcases List.eq_nil_or_concat p with rfl | ⟨q, c, rfl⟩
      · simpa using takeWhile_all harev
      · have hc : c.isDigit = false := hplast c (by simp)
        rw [show (q.concat c).reverse = c :: q.reverse by simp]
        exact takeWhile_all_append_cons _ _ _ harev hc
    have hbemp : ¬ (b.reverse.isEmpty = true) := by
      simp [List.isEmpty_iff, hb]
    have haemp : ¬ (a.reverse.isEmpty = true) := by
      simp [List.isEmpty_iff, ha]
    have hcore : floatProfileCore (p ++ a ++ '_' :: (b ++ ['.', 'n', 'c']))
        = some ('P' :: (a ++ '_' :: b)) := by
      simp only [floatProfileCore, hrev]
      rw [if_pos (by simp)]
      simp only [htakeb]
      rw [if_neg hbemp, hdropb]
      simp [htakea, List.isEmpty_iff, ha]
    show (floatProfileCore (p ++ a ++ '_' :: (b ++ ['.', 'n', 'c']))).map
        (fun l => String.mk l) = some (String.mk ('P' :: (a ++ '_' :: b)))
    rw [hcore]
    rfl
  · rfl

/-- Witness for C6: the prefix `x/R` ends in a non-digit, so the key derived
from `x/R1900650_003.nc` is `P1900650_003`. -/
theorem floatProfile_derives_key_witness :
    floatProfile (String.mk ("x/R".toList ++ "1900650".toList
        ++ '_' :: ("003".toList ++ ['.', 'n', 'c'])))
      = some (String.mk ('P' :: ("1900650".toList ++ '_' :: "003".toList))) :=
  floatProfile_derives_key.1 "x/R".toList "1900650".toList "003".toList
    (by decide) (by decide) (by decide) (by decide)
    (by intro c hc
        rw [show ("x/R".toList.getLast? : Option Char) = some 'R' from rfl] at hc
        injection hc with h2
        subst h2
        decide)

/-! ### Decimal rendering and parsing (for claim C5) -/

lemma charOfDigit_isDigit {d : Nat} (hd : d < 10) :
    (Char.ofNat ('0'.toNat + d)).isDigit = true := by
  interval_cases d <;> decide

lemma digitVal_charOfDigit {d : Nat} (hd : d < 10) :
    digitVal (Char.ofNat ('0'.toNat + d)) = d := by
  interval_cases d <;> decide

lemma natToRevDigits_digits :
    ∀ n, ∀ c ∈ natToRevDigits n, c.isDigit = true := by
  intro n
  induction n using Nat.strong_induction_on with
  | _ n ih =>
    match n with
    | 0 => simp [natToRevDigits]
    | m + 1 =>
      intro c hc
      simp only [natToRevDigits] at hc
      rcases List.mem_cons.mp hc with rfl | hc2
      · exact charOfDigit_isDigit (Nat.mod_lt _ (by decide))
      · exact ih ((m + 1) / 10) (Nat.div_lt_self (Nat.succ_pos m) (by decide)) c hc2

lemma digitsToNat_append (l : List Char) (c : Char) :
    digitsToNat (l ++ [c]) = 10 * digitsToNat l + digitVal c := by
  simp [digitsToNat, List.foldl_append]

lemma digitsToNat_natToRevDigits :
    ∀ n, digitsToNat (natToRevDigits n).reverse = n := by
  intro n
  induction n using Nat.strong_induction_on with
  | _ n ih =>
    match n with
    | 0 => simp [natToRevDigits, digitsToNat]
    | m + 1 =>
      simp only [natToRevDigits, List.reverse_cons]
      rw [digitsToNat_append,
        ih ((m + 1) / 10) (Nat.div_lt_self (Nat.succ_pos m) (by decide)),
        digitVal_charOfDigit (Nat.mod_lt _ (by decide))]
      omega

lemma natRepr_digits (n : Nat) : ∀ c ∈ natRepr n, c.isDigit = true := by
  by_cases h : n = 0
  · subst h
    simp [natRepr]
  · intro c hc
    simp only [natRepr, if_neg h] at hc
    exact natToRevDigits_digits n c (List.mem_reverse.mp hc)

lemma natRepr_ne_nil (n : Nat) : natRepr n ≠ [] := by
  by_cases h : n = 0
  · subst h
    simp [natRepr]
  · simp only [natRepr, if_neg h]
    match hm : n with
    | 0 => exact absurd rfl h
    | m + 1 => simp [natToRevDigits]

lemma digitsToNat_natRepr (n : Nat) : digitsToNat (natRepr n) = n := by
  by_cases h : n = 0
  · subst h
    decide
  · rw [natRepr, if_neg h]
    exact digitsToNat_natToRevDigits n

/-! ### Pattern-search lemmas (for claim C5) -/

lemma startsWithChars_self_append (name l : List Char) :
    startsWithChars name (name ++ l) = true := by
  induction name with
  | nil => rfl
  | cons c rest ih => simp [startsWithChars, ih]

lemma startsWith_false_of_mismatch :
    ∀ (name t rest : List Char), mismatchWithin name t = true →
      startsWithChars name (t ++ rest) = false := by
  intro name
  induction name with
  | nil => intro t rest h; cases t <;> simp [mismatchWithin] at h
  | cons n ns ih =>
    intro t rest h
    cases t with
    | nil => simp [mismatchWithin] at h
    | cons c cs =>
      simp only [mismatchWithin, Bool.or_eq_true] at h
      rcases h with h | h
      · have hne : (n == c) = false := beq_eq_false_iff_ne.mpr (bne_iff_ne.mp h)
        simp [startsWithChars, hne]
      · simp [startsWithChars, ih cs rest h]

lemma matchAt_none_of_not_starts {name hay : List Char}
    (h : startsWithChars name hay = false) : matchAt name hay = none := by
  simp [matchAt, h]

lemma matchAt_token (name digits rest : List Char) (hne : digits ≠ [])
    (hd : ∀ c ∈ digits, c.isDigit = true)
    (hrest : ∀ c, rest.head? = some c → c.isDigit = false) :
    matchAt name (name ++ (digits ++ rest)) = some (digitsToNat digits) := by
  have hdrop : (name ++ (digits ++ rest)).drop name.length = digits ++ rest :=
    List.drop_left _ _
  have htake : (digits ++ rest).takeWhile (·.isDigit) = digits := by
    cases rest with
    | nil => simpa using takeWhile_all hd
    | cons r rs => exact takeWhile_all_append_cons _ _ _ hd (hrest r rfl)
  simp [matchAt, startsWithChars_self_append, hdrop, htake, List.isEmpty_iff, hne]

lemma searchIntPattern_skip (name : List Char) :
    ∀ (pre rest : List Char),
      (∀ t, List.IsSuffix t pre → t ≠ [] → matchAt name (t ++ rest) = none) →
      searchIntPattern name (pre ++ rest) = searchIntPattern name rest := by
  intro pre
  induction pre with
  | nil => intro rest _; rfl
  | cons c cs ih =>
    intro rest h
    have h1 : matchAt name (c :: (cs ++ rest)) = none := by
      rw [← List.cons_append]
      exact h (c :: cs) (List.suffix_refl _) (by simp)
    rw [List.cons_append]
    simp only [searchIntPattern, h1]
    exact ih rest (fun t ht htne => h t (ht.trans (List.suffix_cons c cs)) htne)

lemma searchIntPattern_skip_lit (name seg : List Char) (rest : List Char)
    (h : seg.tails.all (fun t => t.isEmpty || mismatchWithin name t) = true) :
    searchIntPattern name (seg ++ rest) = searchIntPattern name rest := by
  refine searchIntPattern_skip name seg rest ?_
  intro t ht htne
  have hmem : t ∈ seg.tails := (List.mem_tails _ _).mpr ht
  have hor := List.all_eq_true.mp h t hmem
  cases horb : t.isEmpty with
  | true => exact absurd (List.isEmpty_iff.mp horb) htne
  | false =>
    rw [horb] at hor
    simp only [Bool.false_or] at hor
    exact matchAt_none_of_not_starts (startsWith_false_of_mismatch name t rest hor)

lemma searchIntPattern_skip_one (n0 : Char) (ns : List Char)
    (c : Char) (l : List Char) (hne : n0 ≠ c) :
    searchIntPattern (n0 :: ns) (c :: l) = searchIntPattern (n0 :: ns) l := by
  have hsw : startsWithChars (n0 :: ns) (c :: l) = false := by
    simp [startsWithChars, beq_eq_false_iff_ne.mpr hne]
  simp only [searchIntPattern, matchAt_none_of_not_starts hsw]

lemma searchIntPattern_skip_digits (n0 : Char) (ns : List Char)
    (hn0 : n0.isDigit = false) :
    ∀ (d rest : List Char), (∀ c ∈ d, c.isDigit = true) →
      searchIntPattern (n0 :: ns) (d ++ rest) = searchIntPattern (n0 :: ns) rest := by
  intro d
  induction d with
  | nil => intro rest _; rfl
  | cons c cs ih =>
    intro rest hd
    have hcd : c.isDigit = true := hd c (by simp)
    have hne : n0 ≠ c := by
      intro he
      rw [he, hcd] at hn0
      exact Bool.noConfusion hn0
    rw [List.cons_append, searchIntPattern_skip_one n0 ns c _ hne]
    exact ih rest (fun y hy => hd y (by simp [hy]))

lemma searchIntPattern_here (n0 : Char) (ns digits rest : List Char)
    (hne : digits ≠ []) (hd : ∀ c ∈ digits, c.isDigit = true)
    (hrest : ∀ c, rest.head? = some c → c.isDigit = false) :
    searchIntPattern (n0 :: ns) ((n0 :: ns) ++ (digits ++ rest))
      = some (digitsToNat digits) := by
  have hma : matchAt (n0 :: ns) (n0 :: (ns ++ (digits ++ rest)))
      = some (digitsToNat digits) := by
    have := matchAt_token (n0 :: ns) digits rest hne hd hrest
    simpa using this
  rw [List.cons_append]
  simp only [searchIntPattern, hma]

lemma containsSub_self_append (needle rest : List Char) :
    containsSub needle (needle ++ rest) = true := by
  cases needle with
  | nil =>
    cases rest with
    | nil => rfl
    | cons c cs => simp [containsSub, startsWithChars]
  | cons c cs =>
    have h1 : startsWithChars (c :: cs) (c :: (cs ++ rest)) = true := by
      have h2 := startsWithChars_self_append (c :: cs) rest
      rwa [List.cons_append] at h2
    rw [List.cons_append]
    simp [containsSub, h1]

lemma head_cons_not_digit {c0 : Char} (h : c0.isDigit = false) (l : List Char) :
    ∀ c, ((c0 :: l).head? = some c) → c.isDigit = false := by
  intro c hc
  simp only [List.head?_cons, Option.some.injEq] at hc
  exact hc ▸ h

/-! ### Per-token search computations (for claim C5) -/

lemma tokens_head_not_digit (p? r? : Option Nat) :
    ∀ c, (tokenChars "pressure" p? ++ (tokenChars "profiles" r?
        ++ ".hdf".toList)).head? = some c → c.isDigit = false := by
  intro c hc
  rcases p? with _ | vp
  · rcases r? with _ | vr
    · rw [show (tokenChars "pressure" none ++ (tokenChars "profiles" none
          ++ ".hdf".toList)) = '.' :: ['h', 'd', 'f'] from rfl] at hc
      simp only [List.head?_cons, Option.some.injEq] at hc
      exact hc ▸ (by decide)
    · simp only [tokenChars, List.nil_append, List.cons_append, List.head?_cons,
        Option.some.injEq] at hc
      exact hc ▸ (by decide)
  · simp only [tokenChars, List.cons_append, List.head?_cons,
      Option.some.injEq] at hc
    exact hc ▸ (by decide)

lemma tokensR_head_not_digit (r? : Option Nat) :
    ∀ c, (tokenChars "profiles" r? ++ ".hdf".toList).head? = some c →
      c.isDigit = false := by
  intro c hc
  rcases r? with _ | vr
  · rw [show (tokenChars "profiles" none ++ ".hdf".toList)
        = '.' :: ['h', 'd', 'f'] from rfl] at hc
    simp only [List.head?_cons, Option.some.injEq] at hc
    exact hc ▸ (by decide)
  · simp only [tokenChars, List.cons_append, List.head?_cons,
      Option.some.injEq] at hc
    exact hc ▸ (by decide)

lemma hdf_head_not_digit : ∀ c, (".hdf".toList.head? = some c) →
    c.isDigit = false := by
  intro c hc
  rw [show (".hdf".toList) = '.' :: ['h', 'd', 'f'] from rfl] at hc
  exact head_cons_not_digit (by decide) _ c hc

lemma search_age_tailR (r? : Option Nat) :
    searchIntPattern ['a', 'g', 'e']
      (tokenChars "profiles" r? ++ ".hdf".toList) = none := by
  rcases r? with _ | vr
  · rw [show (tokenChars "profiles" none ++ ".hdf".toList)
        = ['.', 'h', 'd', 'f'] from rfl]
    decide
  · rw [show tokenChars "profiles" (some vr)
        = '_' :: (['p', 'r', 'o', 'f', 'i', 'l', 'e', 's'] ++ natRepr vr) from rfl]
    rw [List.cons_append, List.append_assoc]
    rw [searchIntPattern_skip_one 'a' ['g', 'e'] '_' _ (by decide)]
    rw [searchIntPattern_skip_lit _ ['p', 'r', 'o', 'f', 'i', 'l', 'e', 's'] _ (by decide)]
    rw [searchIntPattern_skip_digits 'a' ['g', 'e'] (by decide) (natRepr vr) _
      (natRepr_digits vr)]
    decide

lemma search_age_tail (p? r? : Option Nat) :
    searchIntPattern ['a', 'g', 'e'] (tokenChars "pressure" p?
      ++ (tokenChars "profiles" r? ++ ".hdf".toList)) = none := by
  rcases p? with _ | vp
  · rw [show (tokenChars "pressure" none ++ (tokenChars "profiles" r?
        ++ ".hdf".toList)) = tokenChars "profiles" r? ++ ".hdf".toList from rfl]
    exact search_age_tailR r?
  · rw [show tokenChars "pressure" (some vp)
        = '_' :: (['p', 'r', 'e', 's', 's', 'u', 'r', 'e'] ++ natRepr vp) from rfl]
    rw [List.cons_append, List.append_assoc]
    rw [searchIntPattern_skip_one 'a' ['g', 'e'] '_' _ (by decide)]
    rw [searchIntPattern_skip_lit _ ['p', 'r', 'e', 's', 's', 'u', 'r', 'e'] _ (by decide)]
    rw [searchIntPattern_skip_digits 'a' ['g', 'e'] (by decide) (natRepr vp) _
      (natRepr_digits vp)]
    exact search_age_tailR r?

lemma search_age_encoded (a? p? r? : Option Nat) :
    searchIntPattern "age".toList (encodedList a? p? r?) = a? := by
  rw [show "age".toList = ['a', 'g', 'e'] from rfl]
  rcases a? with _ | va
  · simp only [encodedList]
    rw [show (tokenChars "age" none ++ (tokenChars "pressure" p?
        ++ (tokenChars "profiles" r? ++ ".hdf".toList)))
        = tokenChars "pressure" p? ++ (tokenChars "profiles" r? ++ ".hdf".toList)
        from rfl]
    rw [searchIntPattern_skip_lit _ fixedCacheBase.toList _ (by decide)]
    exact search_age_tail p? r?
  · simp only [encodedList]
    rw [show tokenChars "age" (some va)
        = '_' :: (['a', 'g', 'e'] ++ natRepr va) from rfl]
    rw [searchIntPattern_skip_lit _ fixedCacheBase.toList _ (by decide)]
    rw [List.cons_append, List.append_assoc]
    rw [searchIntPattern_skip_one 'a' ['g', 'e'] '_' _ (by decide)]
    rw [searchIntPattern_here 'a' ['g', 'e'] (natRepr va) _ (natRepr_ne_nil va)
      (natRepr_digits va) (tokens_head_not_digit p? r?)]
    rw [digitsToNat_natRepr]

lemma search_pressure_tailR (r? : Option Nat) :
    searchIntPattern ['p', 'r', 'e', 's', 's', 'u', 'r', 'e']
      (tokenChars "profiles" r? ++ ".hdf".toList) = none := by
  rcases r? with _ | vr
  · rw [show (tokenChars "profiles" none ++ ".hdf".toList)
        = ['.', 'h', 'd', 'f'] from rfl]
    decide
  · rw [show tokenChars "profiles" (some vr)
        = '_' :: (['p', 'r', 'o', 'f', 'i', 'l', 'e', 's'] ++ natRepr vr) from rfl]
    rw [List.cons_append, List.append_assoc]
    rw [searchIntPattern_skip_one 'p' ['r', 'e', 's', 's', 'u', 'r', 'e'] '_' _ (by decide)]
    rw [searchIntPattern_skip_lit _ ['p', 'r', 'o', 'f', 'i', 'l', 'e', 's'] _ (by decide)]
    rw [searchIntPattern_skip_digits 'p' ['r', 'e', 's', 's', 'u', 'r', 'e'] (by decide)
      (natRepr vr) _ (natRepr_digits vr)]
    decide

lemma search_pressure_encoded (a? p? r? : Option Nat) :
    searchIntPattern "pressure".toList (encodedList a? p? r?) = p? := by
  rw [show "pressure".toList = ['p', 'r', 'e', 's', 's', 'u', 'r', 'e'] from rfl]
  have hbase : searchIntPattern ['p', 'r', 'e', 's', 's', 'u', 'r', 'e']
      (encodedList a? p? r?)
      = searchIntPattern ['p', 'r', 'e', 's', 's', 'u', 'r', 'e']
        (tokenChars "pressure" p? ++ (tokenChars "profiles" r? ++ ".hdf".toList)) := by
    rcases a? with _ | va
    · simp only [encodedList]
      rw [show (tokenChars "age" none ++ (tokenChars "pressure" p?
          ++ (tokenChars "profiles" r? ++ ".hdf".toList)))
          = tokenChars "pressure" p? ++ (tokenChars "profiles" r? ++ ".hdf".toList)
          from rfl]
      rw [searchIntPattern_skip_lit _ fixedCacheBase.toList _ (by decide)]
    · simp only [encodedList]
      rw [show tokenChars "age" (some va)
          = '_' :: (['a', 'g', 'e'] ++ natRepr va) from rfl]
      rw [searchIntPattern_skip_lit _ fixedCacheBase.toList _ (by decide)]
      rw [List.cons_append, List.append_assoc]
      rw [searchIntPattern_skip_one 'p' ['r', 'e', 's', 's', 'u', 'r', 'e'] '_' _ (by decide)]
      rw [searchIntPattern_skip_lit _ ['a', 'g', 'e'] _ (by decide)]
      rw [searchIntPattern_skip_digits 'p' ['r', 'e', 's', 's', 'u', 'r', 'e'] (by decide)
        (natRepr va) _ (natRepr_digits va)]
  rw [hbase]
  rcases p? with _ | vp
  · rw [show (tokenChars "pressure" none ++ (tokenChars "profiles" r?
        ++ ".hdf".toList)) = tokenChars "profiles" r? ++ ".hdf".toList from rfl]
    exact search_pressure_tailR r?
  · rw [show tokenChars "pressure" (some vp)
        = '_' :: (['p', 'r', 'e', 's', 's', 'u', 'r', 'e'] ++ natRepr vp) from rfl]
    rw [List.cons_append, List.append_assoc]
    rw [searchIntPattern_skip_one 'p' ['r', 'e', 's', 's', 'u', 'r', 'e'] '_' _ (by decide)]
    rw [searchIntPattern_here 'p' ['r', 'e', 's', 's', 'u', 'r', 'e'] (natRepr vp) _
      (natRepr_ne_nil vp) (natRepr_digits vp) (tokensR_head_not_digit r?)]
    rw [digitsToNat_natRepr]

lemma search_profiles_encoded (a? p? r? : Option Nat) :
    searchIntPattern "profiles".toList (encodedList a? p? r?) = r? := by
  rw [show "profiles".toList = ['p', 'r', 'o', 'f', 'i', 'l', 'e', 's'] from rfl]
  have hbase : searchIntPattern ['p', 'r', 'o', 'f', 'i', 'l', 'e', 's']
      (encodedList a? p? r?)
      = searchIntPattern ['p', 'r', 'o', 'f', 'i', 'l', 'e', 's']
        (tokenChars "pressure" p? ++ (tokenChars "profiles" r? ++ ".hdf".toList)) := by
    rcases a? with _ | va
    · simp only [encodedList]
      rw [show (tokenChars "age" none ++ (tokenChars "pressure" p?
          ++ (tokenChars "profiles" r? ++ ".hdf".toList)))
          = tokenChars "pressure" p? ++ (tokenChars "profiles" r? ++ ".hdf".toList)
          from rfl]
      rw [searchIntPattern_skip_lit _ fixedCacheBase.toList _ (by decide)]
    · simp only [encodedList]
      rw [show tokenChars "age" (some va)
          = '_' :: (['a', 'g', 'e'] ++ natRepr va) from rfl]
      rw [searchIntPattern_skip_lit _ fixedCacheBase.toList _ (by decide)]
      rw [List.cons_append, List.append_assoc]
      rw [searchIntPattern_skip_one 'p' ['r', 'o', 'f', 'i', 'l', 'e', 's'] '_' _ (by decide)]
      rw [searchIntPattern_skip_lit _ ['a', 'g', 'e'] _ (by decide)]
      rw [searchIntPattern_skip_digits 'p' ['r', 'o', 'f', 'i', 'l', 'e', 's'] (by decide)
        (natRepr va) _ (natRepr_digits va)]
  rw [hbase]
  have hmid : searchIntPattern ['p', 'r', 'o', 'f', 'i', 'l', 'e', 's']
      (tokenChars "pressure" p? ++ (tokenChars "profiles" r? ++ ".hdf".toList))
      = searchIntPattern ['p', 'r', 'o', 'f', 'i', 'l', 'e', 's']
        (tokenChars "profiles" r? ++ ".hdf".toList) := by
    rcases p? with _ | vp
    · rw [show (tokenChars "pressure" none ++ (tokenChars "profiles" r?
          ++ ".hdf".toList)) = tokenChars "profiles" r? ++ ".hdf".toList from rfl]
    · rw [show tokenChars "pressure" (some vp)
          = '_' :: (['p', 'r', 'e', 's', 's', 'u', 'r', 'e'] ++ natRepr vp) from rfl]
      rw [List.cons_append, List.append_assoc]
      rw [searchIntPattern_skip_one 'p' ['r', 'o', 'f', 'i', 'l', 'e', 's'] '_' _ (by decide)]
      rw [searchIntPattern_skip_lit _ ['p', 'r', 'e', 's', 's', 'u', 'r', 'e'] _ (by decide)]
      rw [searchIntPattern_skip_digits 'p' ['r', 'o', 'f', 'i', 'l', 'e', 's'] (by decide)
        (natRepr vp) _ (natRepr_digits vp)]
  rw [hmid]
  rcases r? with _ | vr
  · rw [show (tokenChars "profiles" none ++ ".hdf".toList)
        = ['.', 'h', 'd', 'f'] from rfl]
    decide
  · rw [show tokenChars "profiles" (some vr)
        = '_' :: (['p', 'r', 'o', 'f', 'i', 'l', 'e', 's'] ++ natRepr vr) from rfl]
    rw [List.cons_append, List.append_assoc]
    rw [searchIntPattern_skip_one 'p' ['r', 'o', 'f', 'i', 'l', 'e', 's'] '_' _ (by decide)]
    rw [searchIntPattern_here 'p' ['r', 'o', 'f', 'i', 'l', 'e', 's'] (natRepr vr) _
      (natRepr_ne_nil vr) (natRepr_digits vr) hdf_head_not_digit]
    rw [digitsToNat_natRepr]

/-- C5: encode/decode round-trip of cache file names — decoding a name built
by `short_cache_file` recovers exactly the constraint tokens present in it
(an absent token yields no entry); and concretely
`oxyfloat_fixed_cache_age3000_profiles1.hdf` decodes to
`{age: 3000, profiles: 1}`, against which a request of `profiles=5` is
clamped to `1`. -/
theorem cacheFileName_roundtrip :
    (∀ (age? pressure? profiles? : Option Nat),
      getCacheFileParms (shortCacheFile age? pressure? profiles?)
        = (age?.map (fun v => ("age", v))).toList
          ++ (pressure?.map (fun v => ("pressure", v))).toList
          ++ (profiles?.map (fun v => ("profiles", v))).toList)
    ∧ getCacheFileParms "oxyfloat_fixed_cache_age3000_profiles1.hdf"
        = [("age", 3000), ("profiles", 1)]
    ∧ validateCacheFileParm
        (some (getCacheFileParms "oxyfloat_fixed_cache_age3000_profiles1.hdf"))
        "profiles" (some 5) = 1 := by
  refine ⟨?_, ?_, ?_⟩
  · intro a? p? r?
    have hmk : (shortCacheFile a? p? r?).toList = encodedList a? p? r? := rfl
    have hcont : containsSub fixedCacheBase.toList (encodedList a? p? r?) = true := by
      show containsSub fixedCacheBase.toList (fixedCacheBase.toList ++ _) = true
      exact containsSub_self_append _ _
    simp only [getCacheFileParms, hmk, hcont]
    rw [if_pos trivial]
    simp only [cacheParmNames, List.filterMap_cons, List.filterMap_nil,
      search_age_encoded, search_pressure_encoded, search_profiles_encoded]
    rcases a? with _ | va <;> rcases p? with _ | vp <;> rcases r? with _ | vr <;> simp
  · decide
  · decide

end Oxyfloat
